import Mathlib

/-!
Shallow embedding of the entry-management core of `garbage_man` (src/db.rs).

The store is modelled as a list of rows together with the SQLite
auto-increment counter.  The connection also carries the current local time
(an abstract instant, a `Nat`) and a fault schedule: each low-level statement
executed against the connection consumes one entry of the schedule, and a
`true` entry makes that statement fail with a storage-level error, modelling
the fallibility that `rusqlite` exposes through `Result<_, rusqlite::Error>`.
An empty schedule is a run in which the storage layer never fails.

Timestamp handling (`chrono`) is abstracted by two parameters threaded
through the definitions: `parseTs : String → Option Nat` models
`DateTime::from_str` (which parse attempts succeed is irrelevant to the
code's control flow), and `printTs : Nat → String` models
`Local::now().to_string()`.
-/

namespace Garman

/-- The `rusqlite::Error` values that `db.rs` distinguishes:
`QueryReturnedNoRows` (matched explicitly in `insert_into_db`, and produced
by `query_row` on zero rows) and every other storage-level failure. -/
inductive DbError where
  | queryReturnedNoRows : DbError
  | sqliteFailure : DbError
  deriving DecidableEq, Repr

/-- A stored row of the `store` table, column for column.  `created_at` is
stored as the string that was written by the insert statement. -/
structure Row where
  id : Nat
  name : String
  path : String
  project_name : String
  language : String
  preserve : String
  created_at : String
  deriving DecidableEq, Repr

/-- `EntryBuilder` from src/db.rs: the caller-supplied candidate record. -/
structure EntryBuilder where
  name : String
  path : String
  project_name : String
  language : String
  preserve : List String
  deriving DecidableEq, Repr

/-- `EntryBuilder::new`: the preserve list defaults to the empty vector. -/
def EntryBuilder.new (name path project_name language : String)
    (preserve : Option (List String)) : EntryBuilder :=
  { name := name, path := path, project_name := project_name,
    language := language, preserve := preserve.getD [] }

/-- `Entry` from src/db.rs: what reads return.  `created_at` is the parsed
timestamp (`DateTime<Local>`, modelled as an abstract instant). -/
structure Entry where
  id : Nat
  name : String
  path : String
  project_name : String
  language : String
  preserve : String
  created_at : Nat
  deriving DecidableEq, Repr

/-- The connection: table contents, auto-increment counter, the current
local time, and the fault schedule for the storage layer. -/
structure Conn where
  rows : List Row
  nextId : Nat
  now : Nat
  faults : List Bool
  deriving DecidableEq, Repr

/-- Consume one entry of the fault schedule; an exhausted schedule means the
statement succeeds. -/
def takeFault (c : Conn) : Bool × Conn :=
  match c.faults with
  | [] => (false, c)
  | f :: fs => (f, { c with faults := fs })

/-- `compress_vec`: fold with `push_str`, i.e. concatenation with no
separator. -/
def compress_vec (v : List String) : String :=
  v.foldl (fun acc f => acc ++ f) ""

/-- Rust `str::split(",")` on the character list: splitting on a literal
comma, where the empty input yields one empty token. -/
def splitComma : List Char → List (List Char)
  | [] => [[]]
  | c :: cs =>
    if c = ',' then [] :: splitComma cs
    else
      match splitComma cs with
      | [] => [[c]]
      | r :: rs => (c :: r) :: rs

/-- `decompress_to_vec`: split the stored string on literal commas. -/
def decompress_to_vec (v : String) : List String :=
  (splitComma v.data).map (fun l => String.mk l)

/-- The row-mapping closure shared by `get_all` and `does_exist`: read the
columns and parse `created_at`, substituting the current local time when the
stored string does not parse (`unwrap_or(Local::now())`). -/
def rowToEntry (parseTs : String → Option Nat) (now : Nat) (r : Row) : Entry :=
  { id := r.id, name := r.name, path := r.path, project_name := r.project_name,
    language := r.language, preserve := r.preserve,
    created_at := (parseTs r.created_at).getD now }

/-- `does_exist`: `SELECT ... WHERE path = ? LIMIT 1` via `query_row`.
Zero matching rows yield `QueryReturnedNoRows`; otherwise the first matching
row in table order is returned. -/
def does_exist (parseTs : String → Option Nat) (c : Conn) (path : String) :
    Except DbError Entry × Conn :=
  let (fault, c1) := takeFault c
  if fault then (Except.error DbError.sqliteFailure, c1)
  else
    match c1.rows.find? (fun r => r.path == path) with
    | none => (Except.error DbError.queryReturnedNoRows, c1)
    | some r => (Except.ok (rowToEntry parseTs c1.now r), c1)

/-- `delete_entry`: `DELETE ... WHERE path = ?`; removes every matching row
and returns the number of rows removed. -/
def delete_entry (c : Conn) (path : String) : Except DbError Nat × Conn :=
  let (fault, c1) := takeFault c
  if fault then (Except.error DbError.sqliteFailure, c1)
  else
    (Except.ok (c1.rows.countP (fun r => r.path == path)),
     { c1 with rows := c1.rows.filter (fun r => !(r.path == path)) })

/-- Descending insertion by `id` (ids are unique, so ties are irrelevant). -/
def insertRowDesc (r : Row) : List Row → List Row
  | [] => [r]
  | s :: rest => if s.id ≤ r.id then r :: s :: rest else s :: insertRowDesc r rest

/-- `ORDER BY id DESC` over the table contents. -/
def sortByIdDesc : List Row → List Row
  | [] => []
  | r :: rest => insertRowDesc r (sortByIdDesc rest)

/-- `get_all`: `SELECT ... ORDER BY id DESC`; every row is mapped through the
row-mapping closure. -/
def get_all (parseTs : String → Option Nat) (c : Conn) :
    Except DbError (List Entry) × Conn :=
  let (fault, c1) := takeFault c
  if fault then (Except.error DbError.sqliteFailure, c1)
  else (Except.ok ((sortByIdDesc c1.rows).map (rowToEntry parseTs c1.now)), c1)

/-- The tail of `insert_into_db`: `let _ = conn.execute(&query, []);`
followed by the read-back `does_exist(conn, &eb.path)`.  The insert
statement's own result is discarded; on failure no row is added.  A
successful execute appends a fresh row with the auto-assigned id and the
`time_now` string fixed at the top of `insert_into_db`. -/
def runInsertStatement (parseTs : String → Option Nat) (time_now : String)
    (c : Conn) (eb : EntryBuilder) : Except DbError Entry × Conn :=
  let (fault, c1) := takeFault c
  let c2 :=
    if fault then c1
    else
      { c1 with
        rows := c1.rows ++
          [{ id := c1.nextId, name := eb.name, path := eb.path,
             project_name := eb.project_name, language := eb.language,
             preserve := compress_vec eb.preserve, created_at := time_now }],
        nextId := c1.nextId + 1 }
  does_exist parseTs c2 eb.path

/-- `insert_into_db`: fix `time_now`, check for an existing record with the
candidate's path, delete it when found (returning `QueryReturnedNoRows`
without executing the insert when that delete fails), treat
`QueryReturnedNoRows` from the check as "fresh add", silently ignore any
other error from the check, then execute the insert statement (result
discarded) and read the record back by path. -/
def insert_into_db (parseTs : String → Option Nat) (printTs : Nat → String)
    (c : Conn) (eb : EntryBuilder) : Except DbError Entry × Conn :=
  let time_now := printTs c.now
  match does_exist parseTs c eb.path with
  | (Except.ok _, c1) =>
      match delete_entry c1 eb.path with
      | (Except.ok _, c2) => runInsertStatement parseTs time_now c2 eb
      | (Except.error _, c2) => (Except.error DbError.queryReturnedNoRows, c2)
  | (Except.error DbError.queryReturnedNoRows, c1) =>
      runInsertStatement parseTs time_now c1 eb
  | (Except.error DbError.sqliteFailure, c1) =>
      runInsertStatement parseTs time_now c1 eb

/-- `delete_all`: the source builds `Table::truncate()` with the
`SqliteQueryBuilder`.  sea_query's SQLite backend does not support TRUNCATE
(building the statement panics with "Sqlite doesn't support TRUNCATE
statement"), and SQLite itself has no TRUNCATE statement either, so the call
can never succeed and never removes a row; we model the outcome as a
storage-level failure that leaves the store untouched. -/
def delete_all (c : Conn) : Except DbError Nat × Conn :=
  (Except.error DbError.sqliteFailure, c)

/-- Run a sequence of inserts, threading the connection and collecting each
insert's result. -/
def runInserts (parseTs : String → Option Nat) (printTs : Nat → String)
    (c : Conn) : List EntryBuilder → List (Except DbError Entry) × Conn
  | [] => ([], c)
  | eb :: rest =>
    let (res, c1) := insert_into_db parseTs printTs c eb
    let (results, c2) := runInserts parseTs printTs c1 rest
    (res :: results, c2)

/-- The row that a successful insert statement adds for builder `eb` on
connection state `c`. -/
def newRowOf (printTs : Nat → String) (c : Conn) (eb : EntryBuilder) : Row :=
  { id := c.nextId, name := eb.name, path := eb.path,
    project_name := eb.project_name, language := eb.language,
    preserve := compress_vec eb.preserve, created_at := printTs c.now }

/-! ### Stepping lemmas: how each operation evaluates on explicit states -/

theorem does_exist_nofault (parseTs : String → Option Nat) (rows : List Row)
    (nid now : Nat) (p : String) :
    does_exist parseTs ⟨rows, nid, now, []⟩ p =
      match rows.find? (fun r => r.path == p) with
      | none => (Except.error DbError.queryReturnedNoRows, ⟨rows, nid, now, []⟩)
      | some r => (Except.ok (rowToEntry parseTs now r), ⟨rows, nid, now, []⟩) := rfl

theorem does_exist_step (parseTs : String → Option Nat) (rows : List Row)
    (nid now : Nat) (fs : List Bool) (p : String) :
    does_exist parseTs ⟨rows, nid, now, false :: fs⟩ p =
      match rows.find? (fun r => r.path == p) with
      | none => (Except.error DbError.queryReturnedNoRows, ⟨rows, nid, now, fs⟩)
      | some r => (Except.ok (rowToEntry parseTs now r), ⟨rows, nid, now, fs⟩) := rfl

theorem does_exist_fault (parseTs : String → Option Nat) (rows : List Row)
    (nid now : Nat) (fs : List Bool) (p : String) :
    does_exist parseTs ⟨rows, nid, now, true :: fs⟩ p =
      (Except.error DbError.sqliteFailure, ⟨rows, nid, now, fs⟩) := rfl

theorem delete_entry_nofault (rows : List Row) (nid now : Nat) (p : String) :
    delete_entry ⟨rows, nid, now, []⟩ p =
      (Except.ok (rows.countP (fun r => r.path == p)),
       ⟨rows.filter (fun r => !(r.path == p)), nid, now, []⟩) := rfl

theorem delete_entry_fault (rows : List Row) (nid now : Nat) (fs : List Bool)
    (p : String) :
    delete_entry ⟨rows, nid, now, true :: fs⟩ p =
      (Except.error DbError.sqliteFailure, ⟨rows, nid, now, fs⟩) := rfl

theorem get_all_nofault (parseTs : String → Option Nat) (rows : List Row)
    (nid now : Nat) :
    get_all parseTs ⟨rows, nid, now, []⟩ =
      (Except.ok ((sortByIdDesc rows).map (rowToEntry parseTs now)),
       ⟨rows, nid, now, []⟩) := rfl

theorem get_all_fault (parseTs : String → Option Nat) (rows : List Row)
    (nid now : Nat) (fs : List Bool) :
    get_all parseTs ⟨rows, nid, now, true :: fs⟩ =
      (Except.error DbError.sqliteFailure, ⟨rows, nid, now, fs⟩) := rfl

theorem runInsertStatement_nofault (parseTs : String → Option Nat)
    (time_now : String) (rows : List Row) (nid now : Nat) (eb : EntryBuilder) :
    runInsertStatement parseTs time_now ⟨rows, nid, now, []⟩ eb =
      does_exist parseTs
        ⟨rows ++ [⟨nid, eb.name, eb.path, eb.project_name, eb.language,
                   compress_vec eb.preserve, time_now⟩], nid + 1, now, []⟩
        eb.path := rfl

/-! ### List helpers -/

theorem filter_not_of_find?_none {α : Type} (p : α → Bool) (l : List α)
    (h : l.find? p = none) : l.filter (fun x => !(p x)) = l := by
  rw [List.filter_eq_self]
  intro a ha
  simpa using List.find?_eq_none.1 h a ha

theorem find?_filter_not_none {α : Type} (p : α → Bool) (l : List α) :
    (l.filter (fun x => !(p x))).find? p = none := by
  rw [List.find?_eq_none]
  intro a ha
  have := (List.mem_filter.1 ha).2
  simpa using this

theorem countP_filter_not_zero {α : Type} (p : α → Bool) (l : List α) :
    (l.filter (fun x => !(p x))).countP p = 0 := by
  rw [List.countP_eq_zero]
  intro a ha
  have := (List.mem_filter.1 ha).2
  simpa using this

theorem filter_filter_not_nil {α : Type} (p : α → Bool) (l : List α) :
    (l.filter (fun x => !(p x))).filter p = [] := by
  rw [List.filter_eq_nil_iff]
  intro a ha
  have := (List.mem_filter.1 ha).2
  simpa using this

theorem find?_append_new (rows : List Row) (newRow : Row) (p : String)
    (hnone : rows.find? (fun r => r.path == p) = none) (hpath : newRow.path = p) :
    (rows ++ [newRow]).find? (fun r => r.path == p) = some newRow := by
  rw [List.find?_append, hnone]
  simp [hpath]

theorem mem_insertRowDesc (a r : Row) (l : List Row) :
    a ∈ insertRowDesc r l ↔ a = r ∨ a ∈ l := by
  induction l with
  | nil => simp [insertRowDesc]
  | cons s rest ih =>
    by_cases h : s.id ≤ r.id
    · simp [insertRowDesc, h]
    · simp only [insertRowDesc, if_neg h, List.mem_cons, ih]
      tauto

theorem mem_sortByIdDesc (a : Row) (l : List Row) :
    a ∈ sortByIdDesc l ↔ a ∈ l := by
  induction l with
  | nil => simp [sortByIdDesc]
  | cons r rest ih =>
    simp [sortByIdDesc, mem_insertRowDesc, ih]

/-! ### The fault-free behaviour of a single insert -/

/-- On a run without storage faults, `insert_into_db` removes every row
carrying the candidate's path (the delete-before-insert step), appends a
fresh row built from the candidate with the next auto-increment id and the
current time, and returns the read-back of exactly that fresh row. -/
theorem insert_into_db_nofault (parseTs : String → Option Nat)
    (printTs : Nat → String) (rows : List Row) (nid now : Nat)
    (eb : EntryBuilder) :
    insert_into_db parseTs printTs ⟨rows, nid, now, []⟩ eb =
      (Except.ok (rowToEntry parseTs now
         ⟨nid, eb.name, eb.path, eb.project_name, eb.language,
          compress_vec eb.preserve, printTs now⟩),
       ⟨rows.filter (fun r => !(r.path == eb.path)) ++
          [⟨nid, eb.name, eb.path, eb.project_name, eb.language,
            compress_vec eb.preserve, printTs now⟩],
        nid + 1, now, []⟩) := by
  cases hfind : rows.find? (fun r => r.path == eb.path) with
  | none =>
    have hfilter := filter_not_of_find?_none (fun r => r.path == eb.path) rows hfind
    simp only [insert_into_db, does_exist_nofault, hfind, runInsertStatement_nofault,
      hfilter]
    rw [find?_append_new rows _ eb.path hfind rfl]
  | some r0 =>
    have hnone := find?_filter_not_none (fun r => r.path == eb.path) rows
    simp only [insert_into_db, does_exist_nofault, hfind, delete_entry_nofault,
      runInsertStatement_nofault]
    rw [find?_append_new _ _ eb.path hnone rfl]

theorem runInserts_nil (parseTs : String → Option Nat) (printTs : Nat → String)
    (c : Conn) : runInserts parseTs printTs c [] = ([], c) := rfl

theorem runInserts_cons (parseTs : String → Option Nat) (printTs : Nat → String)
    (c : Conn) (eb : EntryBuilder) (rest : List EntryBuilder) :
    runInserts parseTs printTs c (eb :: rest) =
      ((insert_into_db parseTs printTs c eb).1 ::
         (runInserts parseTs printTs (insert_into_db parseTs printTs c eb).2 rest).1,
       (runInserts parseTs printTs (insert_into_db parseTs printTs c eb).2 rest).2) := rfl

/-! ### Claim theorems -/

/-- C1: Path uniqueness invariant.  For every fault-free run of a nonempty
sequence of inserts sharing the same path `p`, every insert in the sequence
succeeds, and afterwards exactly one stored row has path `p`; its name,
project_name, language and preserve columns are the last insert's inputs
(the preserve column holding the encoded preserve list).  Each insert first
looks up and deletes any existing row with the candidate's path before
inserting, as `insert_into_db_nofault` exhibits. -/
theorem c1_path_uniqueness (parseTs : String → Option Nat)
    (printTs : Nat → String) (p : String) (ebs : List EntryBuilder)
    (lst : EntryBuilder) (rows : List Row) (nid now : Nat)
    (hlast : ebs.getLast? = some lst) (hp : ∀ eb ∈ ebs, eb.path = p) :
    (∀ res ∈ (runInserts parseTs printTs ⟨rows, nid, now, []⟩ ebs).1,
        ∃ e, res = Except.ok e) ∧
    ∃ r, ((runInserts parseTs printTs ⟨rows, nid, now, []⟩ ebs).2.rows.filter
            (fun row => row.path == p)) = [r] ∧
      r.name = lst.name ∧ r.project_name = lst.project_name ∧
      r.language = lst.language ∧ r.preserve = compress_vec lst.preserve := by
  induction ebs generalizing lst rows nid now with
  | nil => simp at hlast
  | cons eb rest ih =>
    cases rest with
    | nil =>
      have hlst : eb = lst := by simpa using hlast
      have hpath : eb.path = p := hp eb (List.mem_cons_self _ _)
      rw [runInserts_cons, insert_into_db_nofault, runInserts_nil]
      dsimp only
      constructor
      · intro res hres
        simp only [List.mem_cons, List.not_mem_nil, or_false] at hres
        exact ⟨_, hres⟩
      · refine ⟨⟨nid, eb.name, eb.path, eb.project_name, eb.language,
          compress_vec eb.preserve, printTs now⟩, ?_,
          by rw [hlst], by rw [hlst], by rw [hlst], by rw [hlst]⟩
        rw [hpath, List.filter_append, filter_filter_not_nil]
        simp [hpath]
    | cons eb2 rest2 =>
      have hlast' : (eb2 :: rest2).getLast? = some lst := by
        rw [← List.getLast?_cons_cons (a := eb)]; exact hlast
      have hp' : ∀ e ∈ eb2 :: rest2, e.path = p :=
        fun e he => hp e (List.mem_cons_of_mem _ he)
      obtain ⟨hok, hfilt⟩ :=
        ih lst
          (rows.filter (fun r => !(r.path == eb.path)) ++
            [⟨nid, eb.name, eb.path, eb.project_name, eb.language,
              compress_vec eb.preserve, printTs now⟩])
          (nid + 1) now hlast' hp'
      rw [runInserts_cons, insert_into_db_nofault]
      refine ⟨?_, hfilt⟩
      intro res hres
      rcases List.mem_cons.1 hres with h1 | h2
      · exact ⟨_, h1⟩
      · exact hok res h2

/-- A parse function under which no stored timestamp string parses. -/
def noParse : String → Option Nat := fun _ => none

/-- A fixed rendering of the current local time. -/
def constPrint : Nat → String := fun _ => "t"

/-- Witness for C1: two inserts at path "/a" on an empty store leave exactly
one row, carrying the second insert's fields. -/
theorem c1_witness :
    (∀ res ∈ (runInserts noParse constPrint ⟨[], 1, 0, []⟩
        [⟨"x", "/a", "p1", "go", []⟩, ⟨"y", "/a", "p2", "rs", ["k"]⟩]).1,
        ∃ e, res = Except.ok e) ∧
    ∃ r, ((runInserts noParse constPrint ⟨[], 1, 0, []⟩
        [⟨"x", "/a", "p1", "go", []⟩, ⟨"y", "/a", "p2", "rs", ["k"]⟩]).2.rows.filter
          (fun row => row.path == "/a")) = [r] ∧
      r.name = (⟨"y", "/a", "p2", "rs", ["k"]⟩ : EntryBuilder).name ∧
      r.project_name = (⟨"y", "/a", "p2", "rs", ["k"]⟩ : EntryBuilder).project_name ∧
      r.language = (⟨"y", "/a", "p2", "rs", ["k"]⟩ : EntryBuilder).language ∧
      r.preserve = compress_vec (⟨"y", "/a", "p2", "rs", ["k"]⟩ : EntryBuilder).preserve :=
  c1_path_uniqueness noParse constPrint "/a"
    [⟨"x", "/a", "p1", "go", []⟩, ⟨"y", "/a", "p2", "rs", ["k"]⟩]
    ⟨"y", "/a", "p2", "rs", ["k"]⟩ [] 1 0 (by decide) (by decide)

/-- C2 counterexample: the failure surfaced when the delete-before-insert
step fails (first scenario: one stored row at "/a", the delete statement
fails) is `QueryReturnedNoRows` — exactly the same error a plain failed add
surfaces (second scenario: empty store, the insert statement itself fails
and the read-back finds no row).  The two failures are therefore NOT
distinguishable, contrary to the claim's ReplaceConflict requirement. -/
theorem c2_counterexample :
    (insert_into_db noParse constPrint
        ⟨[⟨1, "x", "/a", "p1", "go", "", "t"⟩], 2, 0, [false, true]⟩
        ⟨"y", "/a", "p2", "rs", []⟩).1 =
      Except.error DbError.queryReturnedNoRows ∧
    (insert_into_db noParse constPrint ⟨[], 1, 0, [false, true, false]⟩
        ⟨"y", "/a", "p2", "rs", []⟩).1 =
      Except.error DbError.queryReturnedNoRows := ⟨rfl, rfl⟩

/-- C2 (amended): when the existence check finds a record and the
delete-before-insert step fails, `insert_into_db` returns an error (the
`QueryReturnedNoRows` value, not a distinct ReplaceConflict) without
executing the insert statement, and the store is left unchanged: the prior
record remains intact. -/
theorem c2_abort_on_delete_failure (parseTs : String → Option Nat)
    (printTs : Nat → String) (rows : List Row) (nid now : Nat) (fs : List Bool)
    (eb : EntryBuilder) (r : Row)
    (hfind : rows.find? (fun row => row.path == eb.path) = some r) :
    insert_into_db parseTs printTs ⟨rows, nid, now, false :: true :: fs⟩ eb =
      (Except.error DbError.queryReturnedNoRows, ⟨rows, nid, now, fs⟩) := by
  simp only [insert_into_db, does_exist_step, hfind, delete_entry_fault]

/-- Witness for the amended C2 at a one-row store. -/
theorem c2_witness :
    insert_into_db noParse constPrint
        ⟨[⟨1, "x", "/a", "p1", "go", "", "t"⟩], 2, 0, [false, true]⟩
        ⟨"y", "/a", "p2", "rs", []⟩ =
      (Except.error DbError.queryReturnedNoRows,
       ⟨[⟨1, "x", "/a", "p1", "go", "", "t"⟩], 2, 0, []⟩) :=
  c2_abort_on_delete_failure noParse constPrint
    [⟨1, "x", "/a", "p1", "go", "", "t"⟩] 2 0 []
    ⟨"y", "/a", "p2", "rs", []⟩ ⟨1, "x", "/a", "p1", "go", "", "t"⟩ (by decide)

/-- C3 (code bug): `delete_all` never succeeds and never clears the store.
The source builds a TRUNCATE statement with the SQLite query builder;
SQLite has no TRUNCATE statement and sea_query's SQLite backend refuses to
build one (it panics), so the operation can never return a row count and
removes nothing: after attempting `delete_all` on a one-row store,
`get_all` still returns that row, not an empty sequence. -/
theorem c3_delete_all_never_clears :
    (∀ c : Conn, (delete_all c).1 = Except.error DbError.sqliteFailure ∧
      (delete_all c).2 = c) ∧
    (get_all noParse
        (delete_all ⟨[⟨1, "x", "/a", "p1", "go", "", "t"⟩], 2, 0, []⟩).2).1 =
      Except.ok [rowToEntry noParse 0 ⟨1, "x", "/a", "p1", "go", "", "t"⟩] :=
  ⟨fun _ => ⟨rfl, rfl⟩, rfl⟩

/-- C4: the list codec is lossy: encode concatenates with no separator, so
encoding distinguishes neither ["a","b"] from ["ab"]; decode splits on a
literal comma; decode is not an inverse of encode. -/
theorem c4_codec_lossy :
    compress_vec ["a", "b"] = "ab" ∧ compress_vec ["ab"] = "ab" ∧
    decompress_to_vec "a,b" = ["a", "b"] ∧
    ¬ (∀ v : List String, decompress_to_vec (compress_vec v) = v) :=
  ⟨rfl, rfl, by decide, fun h => absurd (h ["a", "b"]) (by decide)⟩

/-- C5 counterexample: a storage-level failure injected into insert's
existence check is silently consumed: the operation continues, executes the
insert anyway and reports success — returning the stale prior record — and
leaves the store with two rows for the path. -/
theorem c5_counterexample :
    (insert_into_db noParse constPrint
        ⟨[⟨1, "x", "/a", "p1", "go", "", "t"⟩], 2, 0, [true, false, false]⟩
        ⟨"y", "/a", "p2", "rs", []⟩).1 =
      Except.ok (rowToEntry noParse 0 ⟨1, "x", "/a", "p1", "go", "", "t"⟩) ∧
    ((insert_into_db noParse constPrint
        ⟨[⟨1, "x", "/a", "p1", "go", "", "t"⟩], 2, 0, [true, false, false]⟩
        ⟨"y", "/a", "p2", "rs", []⟩).2.rows.filter
          (fun r => r.path == "/a")).length = 2 := ⟨rfl, rfl⟩

/-- C5 (amended): `does_exist`, `get_all` and `delete_entry` surface every
storage-level failure to the caller; but `insert_into_db`'s existence check
consumes ANY error — not only NotFound — and proceeds directly to the
insert statement (whose own result is discarded and surfaced only
indirectly through the read-back). -/
theorem c5_propagation (parseTs : String → Option Nat) (printTs : Nat → String)
    (rows : List Row) (nid now : Nat) (fs : List Bool) (p : String)
    (eb : EntryBuilder) :
    (does_exist parseTs ⟨rows, nid, now, true :: fs⟩ p).1 =
      Except.error DbError.sqliteFailure ∧
    (get_all parseTs ⟨rows, nid, now, true :: fs⟩).1 =
      Except.error DbError.sqliteFailure ∧
    (delete_entry ⟨rows, nid, now, true :: fs⟩ p).1 =
      Except.error DbError.sqliteFailure ∧
    insert_into_db parseTs printTs ⟨rows, nid, now, true :: fs⟩ eb =
      runInsertStatement parseTs (printTs now) ⟨rows, nid, now, fs⟩ eb :=
  ⟨rfl, rfl, rfl, rfl⟩

/-- C6: a fault-free insert returns the record read back by re-querying the
store on the candidate's path: its name, path, project_name and language
are exactly the inserted values, its id is the storage-assigned
auto-increment value, its created_at is the storage-assigned timestamp as
re-parsed from the store, and a subsequent `does_exist` on that path
returns the very same record. -/
theorem c6_insert_roundtrip (parseTs : String → Option Nat)
    (printTs : Nat → String) (rows : List Row) (nid now : Nat)
    (eb : EntryBuilder) :
    ∃ e, (insert_into_db parseTs printTs ⟨rows, nid, now, []⟩ eb).1 =
        Except.ok e ∧
      e.name = eb.name ∧ e.path = eb.path ∧
      e.project_name = eb.project_name ∧ e.language = eb.language ∧
      e.id = nid ∧ e.created_at = (parseTs (printTs now)).getD now ∧
      (does_exist parseTs
        (insert_into_db parseTs printTs ⟨rows, nid, now, []⟩ eb).2 eb.path).1 =
        Except.ok e := by
  refine ⟨rowToEntry parseTs now ⟨nid, eb.name, eb.path, eb.project_name,
    eb.language, compress_vec eb.preserve, printTs now⟩,
    ?_, rfl, rfl, rfl, rfl, rfl, rfl, ?_⟩
  · rw [insert_into_db_nofault]
  · rw [insert_into_db_nofault]
    dsimp only
    rw [does_exist_nofault,
      find?_append_new _ _ eb.path (find?_filter_not_none _ rows) rfl]

/-- C7: `does_exist` on a path with no stored record returns the
distinguishable `QueryReturnedNoRows` condition (a different value from the
generic `sqliteFailure`); when it returns a record, that record's path
equals the queried path exactly and comes from a stored row. -/
theorem c7_not_found (parseTs : String → Option Nat) (rows : List Row)
    (nid now : Nat) (p : String) :
    ((∀ r ∈ rows, r.path ≠ p) →
      (does_exist parseTs ⟨rows, nid, now, []⟩ p).1 =
        Except.error DbError.queryReturnedNoRows) ∧
    (∀ e, (does_exist parseTs ⟨rows, nid, now, []⟩ p).1 = Except.ok e →
      e.path = p ∧ ∃ r ∈ rows, r.path = p ∧ e = rowToEntry parseTs now r) ∧
    (Except.error DbError.queryReturnedNoRows : Except DbError Entry) ≠
      Except.error DbError.sqliteFailure := by
  refine ⟨?_, ?_, by simp⟩
  · intro hnone
    have hfind : rows.find? (fun r => r.path == p) = none := by
      rw [List.find?_eq_none]
      intro a ha
      simpa using hnone a ha
    rw [does_exist_nofault, hfind]
  · intro e he
    rw [does_exist_nofault] at he
    cases hfind : rows.find? (fun r => r.path == p) with
    | none =>
      rw [hfind] at he
      simp at he
    | some r =>
      rw [hfind] at he
      have hre : rowToEntry parseTs now r = e := by simpa using he
      have hrp : r.path = p := by
        have := List.find?_some hfind
        simpa using this
      subst hre
      exact ⟨hrp, r, List.mem_of_find?_eq_some hfind, hrp, rfl⟩

/-- C8: `delete_entry` succeeds returning the count of rows matching the
path (so it does not fail when zero rows match); a second delete on the
same path returns zero; and when exactly one row matches, the first delete
returns one. -/
theorem c8_delete_idempotent (rows : List Row) (nid now : Nat) (p : String) :
    (delete_entry ⟨rows, nid, now, []⟩ p).1 =
      Except.ok (rows.countP (fun r => r.path == p)) ∧
    (delete_entry (delete_entry ⟨rows, nid, now, []⟩ p).2 p).1 =
      Except.ok 0 ∧
    (rows.countP (fun r => r.path == p) = 1 →
      (delete_entry ⟨rows, nid, now, []⟩ p).1 = Except.ok 1) := by
  refine ⟨?_, ?_, ?_⟩
  · rw [delete_entry_nofault]
  · rw [delete_entry_nofault]
    dsimp only
    rw [delete_entry_nofault, countP_filter_not_zero]
  · intro h1
    rw [delete_entry_nofault, h1]

/-- C9: a read (`does_exist` or `get_all`) of a stored record succeeds even
when the stored created_at string does not parse: the created_at field is
the parsed value when the string parses and the current local time
otherwise. -/
theorem c9_timestamp_fallback (parseTs : String → Option Nat)
    (rows : List Row) (nid now : Nat) (r : Row)
    (hfind : rows.find? (fun row => row.path == r.path) = some r) :
    (does_exist parseTs ⟨rows, nid, now, []⟩ r.path).1 =
      Except.ok (rowToEntry parseTs now r) ∧
    (∃ es, (get_all parseTs ⟨rows, nid, now, []⟩).1 = Except.ok es ∧
      ∃ e, e ∈ es ∧ e.id = r.id ∧
        e.created_at = (parseTs r.created_at).getD now) ∧
    (parseTs r.created_at = none →
      (rowToEntry parseTs now r).created_at = now) ∧
    (∀ t, parseTs r.created_at = some t →
      (rowToEntry parseTs now r).created_at = t) := by
  refine ⟨?_, ?_, ?_, ?_⟩
  · rw [does_exist_nofault, hfind]
  · refine ⟨(sortByIdDesc rows).map (rowToEntry parseTs now),
      by rw [get_all_nofault], rowToEntry parseTs now r, ?_, rfl, rfl⟩
    apply List.mem_map_of_mem
    rw [mem_sortByIdDesc]
    exact List.mem_of_find?_eq_some hfind
  · intro h
    simp [rowToEntry, h]
  · intro t h
    simp [rowToEntry, h]

/-- Witness for C9: a stored row whose created_at string never parses is
still read back, its created_at replaced by the current local time. -/
theorem c9_witness :
    ([⟨1, "x", "/a", "p1", "go", "", "garbage"⟩] : List Row).find?
        (fun row => row.path == "/a") =
      some ⟨1, "x", "/a", "p1", "go", "", "garbage"⟩ ∧
    (does_exist noParse ⟨[⟨1, "x", "/a", "p1", "go", "", "garbage"⟩], 2, 7, []⟩
        "/a").1 =
      Except.ok (rowToEntry noParse 7 ⟨1, "x", "/a", "p1", "go", "", "garbage"⟩) :=
  ⟨by decide,
   (c9_timestamp_fallback noParse [⟨1, "x", "/a", "p1", "go", "", "garbage"⟩]
     2 7 ⟨1, "x", "/a", "p1", "go", "", "garbage"⟩ (by decide)).1⟩

/-- Helper for C10: splitting never yields an empty list of tokens. -/
theorem splitComma_ne_nil (l : List Char) : splitComma l ≠ [] := by
  cases l with
  | nil => simp [splitComma]
  | cons c cs =>
    by_cases h : c = ','
    · simp [splitComma, h]
    · simp only [splitComma, if_neg h]
      cases splitComma cs with
      | nil => simp
      | cons r rs => simp

/-- C10: decode never yields an empty sequence — decoding the empty string
yields the one-element sequence [""] — and the default empty preserve list
of `EntryBuilder.new` encodes to "" and decodes to [""] . -/
theorem c10_decode_nonempty :
    (∀ s : String, decompress_to_vec s ≠ []) ∧
    decompress_to_vec "" = [""] ∧
    (∀ n p pr l : String,
      compress_vec (EntryBuilder.new n p pr l none).preserve = "" ∧
      decompress_to_vec
        (compress_vec (EntryBuilder.new n p pr l none).preserve) = [""]) := by
  refine ⟨?_, by decide, fun n p pr l =>
    ⟨rfl, (by decide : decompress_to_vec (compress_vec ([] : List String)) = [""])⟩⟩
  intro s heq
  exact splitComma_ne_nil s.data (List.map_eq_nil_iff.1 heq)

end Garman
